import Mathlib

/-!
Shallow embedding of the settlement-automation repository:
`src/day.py` (schedule importer / store activation) and `src/main.py`
(settlement submitter).  Pure string manipulation is translated
character-for-character from the Python; the database table is a list of
rows; SQL statements become list transformations; the browser-automation
outcome of a submission is an input of the model (an `Outcome` value).
-/

/-! ### Python string primitives, restricted to the characters in play -/

/-- Characters removed by Python `str.strip()` (ASCII whitespace; the
strings in this repository contain no exotic Unicode whitespace). -/
def pySpace (c : Char) : Bool :=
  c = ' ' || c = '\t' || c = '\n' || c = '\r' || c = '\x0b' || c = '\x0c'

def pyStripList (l : List Char) : List Char :=
  ((l.dropWhile pySpace).reverse.dropWhile pySpace).reverse

/-- Python `str.strip()`. -/
def pyStrip (s : String) : String := ⟨pyStripList s.data⟩

/-- Python `str.lower()` / SQL `LOWER`, ASCII case folding (the non-ASCII
characters appearing in this repository are unaffected by lowering). -/
def pyLower (s : String) : String := ⟨s.data.map Char.toLower⟩

/-- Python regex `\w` (Unicode word character), restricted to ASCII
alphanumerics, underscore, and the Latin-1 Supplement / Latin Extended-A
letters; this covers every character this repository's data can contain:
the letters 'â' (U+00E2) and 'œ' (U+0153) are word characters, while
'“' (U+201C), '✓' (U+2713) and '✔' (U+2714) are not, exactly as in Python. -/
def pyIsWordChar (c : Char) : Bool :=
  c.isAlphanum || c = '_' ||
    (0xC0 ≤ c.toNat && c.toNat ≤ 0x17F && c.toNat ≠ 0xD7 && c.toNat ≠ 0xF7)

/-- `str(cell)` for a pandas cell: a missing value (NaN) prints as "nan". -/
def pyStr : Option String → String
  | none => "nan"
  | some s => s

/-! ### Calendar -/

structure Date where
  y : Nat
  m : Nat
  d : Nat
deriving DecidableEq, Repr

/-- Day count of a Gregorian calendar date (days since 0000-03-01,
civil-calendar algorithm); strictly monotone in the date, so it also
serves as the comparison key for dates. -/
def dayNumber (dt : Date) : Nat :=
  let yAdj := if dt.m ≤ 2 then dt.y - 1 else dt.y
  let era := yAdj / 400
  let yoe := yAdj - era * 400
  let mp := (dt.m + 9) % 12
  let doy := (153 * mp + 2) / 5 + dt.d - 1
  let doe := yoe * 365 + yoe / 4 - yoe / 100 + doy
  era * 146097 + doe

inductive Weekday
  | monday | tuesday | wednesday | thursday | friday | saturday | sunday
deriving DecidableEq, Repr

def dayName : Weekday → String
  | .monday => "Monday"
  | .tuesday => "Tuesday"
  | .wednesday => "Wednesday"
  | .thursday => "Thursday"
  | .friday => "Friday"
  | .saturday => "Saturday"
  | .sunday => "Sunday"

/-- Weekday of a day number (`dayNumber ⟨1970,1,1⟩ = 719468` and
1970-01-01 was a Thursday, so residue 1 maps to Thursday). -/
def weekdayOfDayNumber (n : Nat) : Weekday :=
  match n % 7 with
  | 0 => .wednesday
  | 1 => .thursday
  | 2 => .friday
  | 3 => .saturday
  | 4 => .sunday
  | 5 => .monday
  | _ => .tuesday

/-- The "not yet activated" placeholder `'2030-01-01'` of `day.py`. -/
def sentinel : Date := ⟨2030, 1, 1⟩

/-! ### Data model: the `settlement_day` table

One row per merchant/store pair.  A day column holds `none` for SQL NULL
(pandas NaN) and `some s` for the text `s`.  The audit timestamps
`created_at` / `updated_at` are not modelled. -/

structure SRow where
  id : Nat
  merchant_name : String
  store_name : String
  from_date : Date
  days : Weekday → Option String
  is_default_date : Bool

/-- A row of the settlement-day report CSV consumed by
`update_settlement_csv` (`none` = empty cell, read by pandas as NaN). -/
structure ReportRow where
  merchant : Option String
  store : Option String
  withdraw : Option String

/-- A row of the daily-transaction report CSV consumed by
`activate_default_stores`. -/
structure TrxRow where
  merchantName : Option String
  storeName : Option String
  date : Date

/-! ### day.py: `parse_days` -/

/-- The exact string literal written by `day.py` line 71 as the "on"
marker: the three characters 'â' (U+00E2), 'œ' (U+0153), '“' (U+201C)
(the source file holds the UTF-8 bytes of "✓" mis-decoded as cp1252). -/
def importerTick : String := "âœ“"

/-- Helper for the regex `\(.*?\)`: given the characters after a '(',
return the remainder after the nearest ')' that is reachable without
crossing a newline ('.' does not match a newline), if any. -/
def afterClose : List Char → Option (List Char)
  | [] => none
  | c :: rest => if c = ')' then some rest else if c = '\n' then none else afterClose rest

/-- Recursion core of `removeParensList`.  Each recursive call is on a
strictly shorter list (`afterClose` returns a strict suffix), so a fuel
equal to the input length can never be exhausted; fuel keeps the
recursion structural so that terms reduce inside the kernel. -/
def removeParensFuel : Nat → List Char → List Char
  | 0, l => l
  | _ + 1, [] => []
  | fuel + 1, c :: rest =>
    if c = '(' then
      match afterClose rest with
      | some rem => removeParensFuel fuel rem
      | none => c :: removeParensFuel fuel rest
    else c :: removeParensFuel fuel rest

/-- `re.sub(r"\(.*?\)", "", s)`: repeatedly delete a '(' together with
everything up to the nearest following ')' (non-greedy, '.' not matching
newline); an unmatched '(' is kept and scanning continues. -/
def removeParensList (l : List Char) : List Char :=
  removeParensFuel l.length l

/-- Python `s.split(",")`: splits on every comma, yielding `[""]` for the
empty string and keeping empty fields. -/
def splitOnComma : List Char → List (List Char)
  | [] => [[]]
  | c :: rest =>
    let r := splitOnComma rest
    if c = ',' then [] :: r
    else
      match r with
      | [] => [[c]]
      | h :: t => (c :: h) :: t

/-- The `if d in days` dictionary-key test of `parse_days`: the keys are
exactly the seven capitalized English weekday names. -/
def weekdayOfName? (s : String) : Option Weekday :=
  if s = "Monday" then some .monday
  else if s = "Tuesday" then some .tuesday
  else if s = "Wednesday" then some .wednesday
  else if s = "Thursday" then some .thursday
  else if s = "Friday" then some .friday
  else if s = "Saturday" then some .saturday
  else if s = "Sunday" then some .sunday
  else none

/-- Loop body of `parse_days`: strip the token; if it is a weekday name,
set that day's entry to the importer's marker. -/
def parseStep (acc : Weekday → String) (tok : List Char) : Weekday → String :=
  match weekdayOfName? (pyStrip ⟨tok⟩) with
  | some w => fun w2 => if w2 = w then importerTick else acc w2
  | none => acc

/-- `day.py` `parse_days`: start from all-empty day entries, remove
parenthesised content, split the descriptor on commas, and mark the days
whose stripped token is exactly a weekday name. -/
def parseDays (text : String) (w : Weekday) : String :=
  ((splitOnComma (removeParensList text.data)).foldl parseStep (fun _ => "")) w

/-! ### day.py: table operations -/

/-- `clear_day_columns`: one SQL UPDATE setting all seven day columns of
every row to the empty string. -/
def clearDayColumns (t : List SRow) : List SRow :=
  t.map fun r => { r with days := fun _ => some "" }

/-- The upsert key comparison `LOWER(merchant_name)=LOWER(:m) AND
LOWER(store_name)=LOWER(:s)`. -/
def sqlKeyMatch (m s : String) (r : SRow) : Bool :=
  pyLower r.merchant_name == pyLower m && pyLower r.store_name == pyLower s

structure UpsertState where
  table : List SRow
  nextId : Nat

/-- Loop body of `update_settlement_csv`: stringify and strip the
Merchant and Store cells, skip the row if either is empty, otherwise
update the seven day columns of every key-matching row, or insert a new
row with the sentinel `from_date` and `is_default_date = 1`. -/
def upsertReportRow (st : UpsertState) (rr : ReportRow) : UpsertState :=
  if pyStrip (pyStr rr.merchant) = "" ∨ pyStrip (pyStr rr.store) = "" then st
  else if st.table.any (sqlKeyMatch (pyStrip (pyStr rr.merchant)) (pyStrip (pyStr rr.store))) then
    { st with
      table := st.table.map fun r =>
        if sqlKeyMatch (pyStrip (pyStr rr.merchant)) (pyStrip (pyStr rr.store)) r
        then { r with days := fun w => some (parseDays (pyStr rr.withdraw) w) } else r }
  else
    { table := st.table ++ [{ id := st.nextId,
                              merchant_name := pyStrip (pyStr rr.merchant),
                              store_name := pyStrip (pyStr rr.store),
                              from_date := sentinel,
                              days := fun w => some (parseDays (pyStr rr.withdraw) w),
                              is_default_date := true }],
      nextId := st.nextId + 1 }

/-- `update_settlement_csv`: clear all day columns, then upsert each
report row in order (`nextId` supplies the fresh primary keys). -/
def updateSettlementCsv (t : List SRow) (report : List ReportRow) (nextId : Nat) : List SRow :=
  (report.foldl upsertReportRow { table := clearDayColumns t, nextId := nextId }).table

/-- The transaction-report match of `activate_default_stores`: the CSV
columns are lowered and stripped, then compared to the lowered, stripped
table names; a NaN cell compares unequal to everything. -/
def trxMatches (m s : String) (x : TrxRow) : Bool :=
  (match x.merchantName with
   | some a => pyStrip (pyLower a) == pyStrip (pyLower m)
   | none => false) &&
  (match x.storeName with
   | some a => pyStrip (pyLower a) == pyStrip (pyLower s)
   | none => false)

/-- Loop body of `activate_default_stores` for one snapshotted
(merchant, store) pair: if the transaction report has a matching row,
set `from_date` to that row's date and `is_default_date` to 0 on every
key-matching table row that still holds the sentinel. -/
def activateStep (trx : List TrxRow) (acc : List SRow) (p : String × String) : List SRow :=
  match trx.find? (trxMatches p.1 p.2) with
  | some x => acc.map fun r =>
      if sqlKeyMatch p.1 p.2 r && (r.from_date == sentinel)
      then { r with from_date := x.date, is_default_date := false } else r
  | none => acc

/-- `activate_default_stores`: snapshot the name pairs of rows with the
sentinel `from_date` and `is_default_date=1`, then run `activateStep`
for each pair in order. -/
def activateDefaultStores (t : List SRow) (trx : List TrxRow) : List SRow :=
  ((t.filter fun r => (r.from_date == sentinel) && r.is_default_date).map
    fun r => (r.merchant_name, r.store_name)).foldl (activateStep trx) t

/-! ### main.py: marker cleaning and the due-today filter -/

/-- `TICK_INDICATORS` (`main.py` line 38); the Python set also contains
the boolean `True`, represented here by its string forms. -/
def tickIndicators : List String := ["x", "X", "✔", "✓", "1", "TRUE", "True", "true"]

/-- The literal marker list of the due-today filter (`main.py` line 521):
`.isin(['1', '✓', '✔', 'x', 'X'])`. -/
def tickFilterList : List String := ["1", "✓", "✔", "x", "X"]

/-- The character class `[\w✓✔xX1]` kept by the regex of `_c` ('x', 'X'
and '1' are word characters already). -/
def keptByCleanRegex (c : Char) : Bool := pyIsWordChar c || c = '✓' || c = '✔'

/-- Body of `_c` in `clean_day_columns` for a non-null value: map the
empty / "none" / "nan" strings (case-insensitively, after stripping) to
"", otherwise delete every character outside the regex class
`[\w✓✔xX1]` and strip. -/
def cleanStr (s : String) : String :=
  if pyLower (pyStrip s) = "" ∨ pyLower (pyStrip s) = "none" ∨ pyLower (pyStrip s) = "nan" then ""
  else pyStrip ⟨s.data.filter keptByCleanRegex⟩

/-- `_c` applied to a day-column cell (`pd.isna` catches NULL). -/
def cleanMarker : Option String → String
  | none => ""
  | some s => cleanStr s

/-- The due-today test of `main.py` line 521 for one cell, composed with
the preceding `clean_day_columns` pass:
`df[day].astype(str).str.strip().isin(['1','✓','✔','x','X'])` applied to
the cleaned value. -/
def eligible (r : SRow) (w : Weekday) : Bool :=
  tickFilterList.contains (pyStrip (cleanMarker (r.days w)))

/-- `df_today`: the rows of the table whose column for today's weekday
passes the marker test (`main.py` lines 511-521). -/
def dueToday (t : List SRow) (w : Weekday) : List SRow :=
  t.filter fun r => eligible r w

/-! ### main.py: submission outcome and from_date persistence -/

/-- Outcome classification of `submit_and_verify_settlement` plus the
per-row exception handler: confirmed success, the "No Transactions"
popup, no detectable result within the wait bound, or an error. -/
inductive Outcome
  | success | noEligible | uncertain | error
deriving DecidableEq, Repr

/-- Per-row persistence (`main.py` lines 570-590): only a `success`
outcome runs `update_from_date`, which sets `from_date` to today; the
returned flag records whether a database write happened. -/
def submitRow (r : SRow) (o : Outcome) (today : Date) : SRow × Bool :=
  match o with
  | .success => ({ r with from_date := today }, true)
  | _ => (r, false)

/-- A sequence of submitter runs acting on one row: each run classifies
an outcome under that run's "today". -/
def runSeq (r : SRow) (runs : List (Outcome × Date)) : SRow :=
  runs.foldl (fun acc p => (submitRow acc p.1 p.2).1) r

/-! ### Timezone handling

An instant is measured in minutes on the `dayNumber` scale; a civil
clock is the instant shifted by a fixed offset.  `main.py` converts
through `pytz.timezone('Asia/Dhaka')` (UTC+6, no DST); `day.py` uses the
naive `datetime.now()` of the server. -/

def dhakaOffsetMinutes : Nat := 360

def utcMinutes (dt : Date) (hh mm : Nat) : Nat := dayNumber dt * 1440 + hh * 60 + mm

def weekdayNameAt (t : Nat) : String := dayName (weekdayOfDayNumber (t / 1440))

/-- `get_bd_now` (`main.py`): the current instant on the Asia/Dhaka clock. -/
def get_bd_now (t : Nat) : Nat := t + dhakaOffsetMinutes

/-- `get_bd_today_name` (`main.py`): today's weekday name in Dhaka. -/
def get_bd_today_name (t : Nat) : String := weekdayNameAt (get_bd_now t)

/-- `get_bd_today` (`main.py`): today's civil day number in Dhaka. -/
def get_bd_today (t : Nat) : Nat := get_bd_now t / 1440

/-- `get_bd_yesterday_str` (`main.py`), as the civil day number of
`get_bd_now() - timedelta(days=1)`. -/
def get_bd_yesterday (t : Nat) : Nat := (get_bd_now t - 1440) / 1440

/-- `today_day` (`day.py` line 33): `datetime.now().strftime("%A")` on
the naive server clock, whose offset from UTC is a deployment parameter
(0 on the UTC CI runner). -/
def dayPyTodayName (serverOffsetMinutes t : Nat) : String :=
  weekdayNameAt (t + serverOffsetMinutes)

/-- `yesterday` (`day.py` line 34) as a civil day number on the naive
server clock. -/
def dayPyYesterday (serverOffsetMinutes t : Nat) : Nat :=
  (t + serverOffsetMinutes - 1440) / 1440

/-- Equality of every modelled field except the seven day columns. -/
def sameIdentity (a b : SRow) : Prop :=
  a.id = b.id ∧ a.merchant_name = b.merchant_name ∧ a.store_name = b.store_name ∧
    a.from_date = b.from_date ∧ a.is_default_date = b.is_default_date

/-- A report row "targets" a table row when it survives the
missing-name skip and its stringified, stripped names key-match the row. -/
def reportTargets (rr : ReportRow) (r : SRow) : Prop :=
  pyStrip (pyStr rr.merchant) ≠ "" ∧ pyStrip (pyStr rr.store) ≠ "" ∧
    sqlKeyMatch (pyStrip (pyStr rr.merchant)) (pyStrip (pyStr rr.store)) r = true

/-! ### Concrete fixtures used by the closed theorems -/

def sentinelMondayRow : SRow :=
  { id := 1, merchant_name := "Acme", store_name := "S1", from_date := sentinel,
    days := fun w => if w = Weekday.monday then some "✓" else some "", is_default_date := true }

def importedRow : SRow :=
  { id := 2, merchant_name := "Acme", store_name := "S1", from_date := ⟨2024, 5, 1⟩,
    days := fun _ => some importerTick, is_default_date := false }

def trueMarkerRow : SRow :=
  { id := 3, merchant_name := "Acme", store_name := "S1", from_date := ⟨2024, 5, 1⟩,
    days := fun _ => some "TRUE", is_default_date := false }

def oneMarkerRow : SRow :=
  { id := 4, merchant_name := "Acme", store_name := "S1", from_date := ⟨2024, 5, 1⟩,
    days := fun _ => some "1", is_default_date := false }

def sentinelRowPending : SRow :=
  { id := 5, merchant_name := "B", store_name := "S2", from_date := sentinel,
    days := fun _ => some "✓", is_default_date := true }

def defaultSentinelRow : SRow :=
  { id := 6, merchant_name := "m", store_name := "s", from_date := sentinel,
    days := fun _ => some "", is_default_date := true }

def oneTrx : List TrxRow := [{ merchantName := some "m", storeName := some "s", date := ⟨2024, 5, 5⟩ }]

def nanMerchantReport : List ReportRow :=
  [{ merchant := none, store := some "S1", withdraw := some "Monday" }]

def c5Instant : Nat := utcMinutes ⟨2024, 3, 4⟩ 19 30

def activeRowW : SRow :=
  { id := 7, merchant_name := "w", store_name := "w", from_date := ⟨2024, 5, 1⟩,
    days := fun _ => some "✓", is_default_date := false }

def c9Row : SRow :=
  { id := 11, merchant_name := "Acme", store_name := "S1", from_date := ⟨2024, 2, 3⟩,
    days := fun _ => some "✓", is_default_date := false }

def c9Report : List ReportRow :=
  [{ merchant := some "Other", store := some "S2", withdraw := some "Friday" }]

/-- C1: the due-today filter of `main.py` line 521 tests only today's day
column; it never consults `from_date`, so a row whose `from_date` is the
"not yet activated" sentinel 2030-01-01 IS included in the due-today set
when its day flag for today is set — contradicting the claim that such a
row is never included. -/
theorem C1_sentinel_row_passes_due_today_filter :
    sentinelMondayRow.from_date = sentinel ∧
    dueToday [sentinelMondayRow] Weekday.monday = [sentinelMondayRow] :=
  ⟨rfl, rfl⟩

/-- C2: the importer writes the three-character mojibake marker "âœ“"
(`day.py` line 71) into the matched weekday column, but the submitter's
cleaning keeps only its two word characters, yielding "âœ", which is not
in the filter's marker list — so a schedule imported by the importer is
never selectable by the submitter. -/
theorem C2_importer_marker_unreadable_by_submitter :
    parseDays "Monday" Weekday.monday = importerTick ∧
    cleanMarker (some importerTick) = "âœ" ∧
    eligible importedRow Weekday.monday = false := by
  refine ⟨by decide, by decide, by decide⟩

/-- C4: `main.py` declares `TICK_INDICATORS` containing the TRUE/True/true
markers (line 38), but the due-today filter (line 521) hardcodes
`['1','✓','✔','x','X']`; a day column holding "TRUE" is therefore treated
as unset, contradicting the claim that every marker of the recognized set
counts as scheduled ("1" is shown recognized for contrast). -/
theorem C4_TRUE_marker_not_recognized :
    "TRUE" ∈ tickIndicators ∧ "true" ∈ tickIndicators ∧
    eligible trueMarkerRow Weekday.monday = false ∧
    eligible oneMarkerRow Weekday.monday = true := by decide

/-- C5: `day.py` line 33 computes `today_day` from the naive server clock
(`datetime.now()` with no timezone); on a UTC server at
2024-03-04T19:30:00Z it resolves "Monday", while `main.py`'s Asia/Dhaka
conversion resolves "Tuesday" (local date 2024-03-05) — contradicting the
claim that both procedures convert through the fixed civil timezone. -/
theorem C5_importer_uses_naive_clock :
    dayPyTodayName 0 c5Instant = "Monday" ∧
    get_bd_today_name c5Instant = "Tuesday" ∧
    get_bd_today c5Instant = dayNumber ⟨2024, 3, 5⟩ ∧
    dayPyTodayName 0 c5Instant ≠ get_bd_today_name c5Instant := by decide

/-- C7: a report row whose Merchant cell is missing is read by pandas as
NaN, which `str()` turns into the non-empty string "nan"; the
`if not merchant or not store` guard does not skip it, and the importer
inserts a row keyed on the placeholder merchant name "nan" —
contradicting the claim that such a row is skipped entirely. -/
theorem C7_nan_merchant_row_inserted :
    (updateSettlementCsv [] nanMerchantReport 1).map SRow.merchant_name = ["nan"] ∧
    (updateSettlementCsv [] nanMerchantReport 1).map SRow.store_name = ["S1"] := by decide

/-- C3 counterexample: a run that classifies a sentinel-dated row's
outcome as success sets `from_date` to today, which is EARLIER than the
sentinel 2030-01-01 — `from_date` decreases, refuting the claim as
stated. -/
theorem C3_counterexample :
    dayNumber (runSeq sentinelRowPending [(Outcome.success, ⟨2025, 10, 12⟩)]).from_date
      < dayNumber sentinelRowPending.from_date := by decide

/-- C6 counterexample: the descriptor "monday" contains the weekday name
Monday case-insensitively, yet `parse_days` (exact, case-sensitive token
comparison) leaves the Monday column off. -/
theorem C6_counterexample :
    parseDays "monday" Weekday.monday = "" ∧ importerTick ≠ "" := by decide

/-- C8 counterexample: `activate_default_stores` — an operation of the
importer script `day.py` — changes an existing row's `from_date` from the
sentinel to the matched transaction date, with no settlement creation
involved. -/
theorem C8_counterexample :
    (activateDefaultStores [defaultSentinelRow] oneTrx).map SRow.from_date = [⟨2024, 5, 5⟩] ∧
    defaultSentinelRow.from_date = sentinel ∧ (⟨2024, 5, 5⟩ : Date) ≠ sentinel := by decide

/-- C10 counterexample: `_c("nan!")` strips the noise and returns "nan",
but a second application maps "nan" to "" — the marker cleaning is not
idempotent. -/
theorem C10_counterexample :
    cleanStr (cleanStr "nan!") ≠ cleanStr "nan!" := by decide

/-! ### Marker-cleaning lemmas (C10) -/

theorem space_not_kept (c : Char) (h : pySpace c = true) : keptByCleanRegex c = false := by
  simp only [pySpace, Bool.or_eq_true, decide_eq_true_eq] at h
  rcases h with ((((h | h) | h) | h) | h) | h <;> subst h <;> decide

theorem pyStripList_eq_self (l : List Char) (h : ∀ c ∈ l, pySpace c = false) :
    pyStripList l = l := by
  unfold pyStripList
  have h1 : l.dropWhile pySpace = l := by
    cases l with
    | nil => rfl
    | cons a as =>
      rw [List.dropWhile_cons, h a (List.mem_cons_self a as)]
      simp
  rw [h1]
  have h2 : l.reverse.dropWhile pySpace = l.reverse := by
    cases hl : l.reverse with
    | nil => rfl
    | cons a as =>
      rw [List.dropWhile_cons]
      have ha : a ∈ l := by
        rw [← List.mem_reverse, hl]
        exact List.mem_cons_self a as
      rw [h a ha]
      simp
  rw [h2, List.reverse_reverse]

theorem mem_of_mem_pyStripList (c : Char) (l : List Char) (h : c ∈ pyStripList l) : c ∈ l := by
  unfold pyStripList at h
  have h1 := List.mem_reverse.mp h
  have h2 := (List.dropWhile_sublist pySpace).subset h1
  have h3 := List.mem_reverse.mp h2
  exact (List.dropWhile_sublist pySpace).subset h3

theorem string_mk_data (s : String) : String.mk s.data = s := by cases s; rfl

theorem pyStrip_eq_self (s : String) (h : ∀ c ∈ s.data, pySpace c = false) : pyStrip s = s := by
  unfold pyStrip
  rw [pyStripList_eq_self s.data h, string_mk_data]

theorem pyLower_eq_empty (s : String) (h : pyLower s = "") : s = "" := by
  have hd : s.data.map Char.toLower = [] := congrArg String.data h
  have h0 : s.data = [] := List.map_eq_nil_iff.mp hd
  rw [← string_mk_data s, h0]

theorem cleanStr_chars_kept (s : String) (c : Char)
    (h : c ∈ (pyStrip ⟨s.data.filter keptByCleanRegex⟩).data) : keptByCleanRegex c = true := by
  have h1 : c ∈ s.data.filter keptByCleanRegex := mem_of_mem_pyStripList c _ h
  exact List.of_mem_filter h1

theorem cleanStr_of_not_special (s : String)
    (h : ¬(pyLower (pyStrip s) = "" ∨ pyLower (pyStrip s) = "none" ∨ pyLower (pyStrip s) = "nan")) :
    cleanStr s = pyStrip ⟨s.data.filter keptByCleanRegex⟩ := by
  unfold cleanStr
  rw [if_neg h]

/-- C10 (amended): the submitter's marker cleaning is idempotent on every
cell value whose single-pass result does not spell "none" or "nan"
case-insensitively — for those values a second pass maps the cleaned
string back to "" instead of fixing it (see the counterexample). -/
theorem C10_clean_idempotent (v : Option String)
    (h1 : pyLower (cleanMarker v) ≠ "none") (h2 : pyLower (cleanMarker v) ≠ "nan") :
    cleanMarker (some (cleanMarker v)) = cleanMarker v := by
  cases v with
  | none =>
    show cleanMarker (some "") = ""
    decide
  | some s =>
    show cleanStr (cleanStr s) = cleanStr s
    by_cases hb : pyLower (pyStrip s) = "" ∨ pyLower (pyStrip s) = "none" ∨ pyLower (pyStrip s) = "nan"
    · have hzero : cleanStr s = "" := by
        unfold cleanStr
        rw [if_pos hb]
      rw [hzero]
      decide
    · have hy : cleanStr s = pyStrip ⟨s.data.filter keptByCleanRegex⟩ := cleanStr_of_not_special s hb
      by_cases hy0 : cleanStr s = ""
      · rw [hy0]
        decide
      · have hkept : ∀ c ∈ (cleanStr s).data, keptByCleanRegex c = true := by
          intro c hc
          rw [hy] at hc
          exact cleanStr_chars_kept s c hc
        have hnospace : ∀ c ∈ (cleanStr s).data, pySpace c = false := by
          intro c hc
          cases hps : pySpace c with
          | false => rfl
          | true =>
            have hcon := space_not_kept c hps
            rw [hkept c hc] at hcon
            exact absurd hcon (by decide)
        have hstrip : pyStrip (cleanStr s) = cleanStr s := pyStrip_eq_self _ hnospace
        have hlow : pyLower (pyStrip (cleanStr s)) ≠ "" := by
          rw [hstrip]
          intro hcon
          exact hy0 (pyLower_eq_empty _ hcon)
        have hlow2 : pyLower (pyStrip (cleanStr s)) ≠ "none" := by
          rw [hstrip]
          exact h1
        have hlow3 : pyLower (pyStrip (cleanStr s)) ≠ "nan" := by
          rw [hstrip]
          exact h2
        have hfilter : (cleanStr s).data.filter keptByCleanRegex = (cleanStr s).data :=
          List.filter_eq_self.mpr hkept
        rw [cleanStr_of_not_special (cleanStr s) (not_or.mpr ⟨hlow, not_or.mpr ⟨hlow2, hlow3⟩⟩)]
        rw [hfilter, string_mk_data, hstrip]

/-- C10 witness: the amended idempotence applied at the canonical marker. -/
theorem C10_clean_idempotent_witness :
    cleanMarker (some (cleanMarker (some "✓"))) = cleanMarker (some "✓") :=
  C10_clean_idempotent (some "✓") (by decide) (by decide)

/-! ### parse_days characterization (C6) -/

theorem weekdayOfName?_eq_some (s : String) (w : Weekday) :
    weekdayOfName? s = some w ↔ s = dayName w := by
  unfold weekdayOfName?
  cases w <;> simp only [dayName] <;> split_ifs <;> simp_all

theorem parseStep_eq_tick (acc : Weekday → String) (tok : List Char) (w : Weekday) :
    parseStep acc tok w = importerTick ↔
      (weekdayOfName? (pyStrip ⟨tok⟩) = some w ∨ acc w = importerTick) := by
  unfold parseStep
  cases h : weekdayOfName? (pyStrip ⟨tok⟩) with
  | none => simp [h]
  | some w' =>
    simp only [h]
    by_cases hw : w = w'
    · subst hw
      simp
    · simp only [if_neg hw, Option.some.injEq]
      constructor
      · intro ha
        exact Or.inr ha
      · intro ha
        rcases ha with ha | ha
        · exact absurd ha.symm hw
        · exact ha

theorem parseFold (toks : List (List Char)) (acc : Weekday → String) (w : Weekday) :
    toks.foldl parseStep acc w = importerTick ↔
      ((∃ tok ∈ toks, weekdayOfName? (pyStrip ⟨tok⟩) = some w) ∨ acc w = importerTick) := by
  induction toks generalizing acc with
  | nil => simp
  | cons tok rest ih =>
    simp only [List.foldl_cons]
    rw [ih, parseStep_eq_tick, List.exists_mem_cons_iff]
    constructor
    · rintro (hex | hstep | hacc)
      · exact Or.inl (Or.inr hex)
      · exact Or.inl (Or.inl hstep)
      · exact Or.inr hacc
    · rintro ((hstep | hex) | hacc)
      · exact Or.inr (Or.inl hstep)
      · exact Or.inl hex
      · exact Or.inr (Or.inr hacc)

/-- C6 (amended): the importer sets a weekday column to its "on" marker
exactly when some comma-separated token of the days-descriptor, after
removing parenthetical content and stripping surrounding whitespace,
equals the weekday's capitalized English name EXACTLY (case-sensitive
verbatim comparison, no substring or case-insensitive matching);
otherwise the column is the canonical "off" (empty). -/
theorem C6_parse_days_exact_token (text : String) (w : Weekday) :
    parseDays text w = importerTick ↔
      ∃ tok ∈ splitOnComma (removeParensList text.data), pyStrip ⟨tok⟩ = dayName w := by
  unfold parseDays
  rw [parseFold]
  have h0 : ((fun _ : Weekday => "") w = importerTick) = False := by
    simp only [eq_iff_iff, iff_false]
    intro hcon
    exact absurd hcon (by decide)
  rw [h0, or_false]
  constructor
  · rintro ⟨tok, hm, hp⟩
    exact ⟨tok, hm, (weekdayOfName?_eq_some _ w).mp hp⟩
  · rintro ⟨tok, hm, hp⟩
    exact ⟨tok, hm, (weekdayOfName?_eq_some _ w).mpr hp⟩

/-- C6 witness: the spec's Acme scenario descriptor does mark Wednesday
(its token matches the name exactly after paren removal and stripping). -/
theorem C6_parse_days_exact_token_witness :
    parseDays "Monday, Wednesday (excluding holidays), Friday" Weekday.wednesday = importerTick :=
  (C6_parse_days_exact_token "Monday, Wednesday (excluding holidays), Friday"
    Weekday.wednesday).mpr ⟨" Wednesday ".data, by decide, by decide⟩

/-! ### Submitter run lemmas (C3) -/

theorem submitRow_not_success (r : SRow) (o : Outcome) (d : Date) (h : o ≠ Outcome.success) :
    submitRow r o d = (r, false) := by
  cases o with
  | success => exact absurd rfl h
  | noEligible => rfl
  | uncertain => rfl
  | error => rfl

theorem runSeq_from_date_mono (r : SRow) (runs : List (Outcome × Date))
    (h : List.Pairwise (fun a b : Date => dayNumber a ≤ dayNumber b)
      (r.from_date :: runs.map Prod.snd)) :
    dayNumber r.from_date ≤ dayNumber (runSeq r runs).from_date := by
  induction runs generalizing r with
  | nil => exact Nat.le_refl _
  | cons p rest ih =>
    rw [List.map_cons] at h
    obtain ⟨h1, h2⟩ := List.pairwise_cons.mp h
    by_cases ho : p.1 = Outcome.success
    · have hr : (submitRow r p.1 p.2).1 = { r with from_date := p.2 } := by
        rw [ho]
        rfl
      have hstep : runSeq r (p :: rest) = runSeq { r with from_date := p.2 } rest := by
        unfold runSeq
        rw [List.foldl_cons, hr]
      rw [hstep]
      have hx : ({ r with from_date := p.2 } : SRow).from_date = p.2 := rfl
      have hch : List.Pairwise (fun a b : Date => dayNumber a ≤ dayNumber b)
          (({ r with from_date := p.2 } : SRow).from_date :: rest.map Prod.snd) := by
        rw [hx]
        exact h2
      have hmid := ih { r with from_date := p.2 } hch
      rw [hx] at hmid
      exact Nat.le_trans (h1 p.2 (List.mem_cons_self _ _)) hmid
    · have hr : (submitRow r p.1 p.2).1 = r := by
        rw [submitRow_not_success r p.1 p.2 ho]
      have hstep : runSeq r (p :: rest) = runSeq r rest := by
        unfold runSeq
        rw [List.foldl_cons, hr]
      rw [hstep]
      apply ih
      refine List.pairwise_cons.mpr ⟨?_, (List.pairwise_cons.mp h2).2⟩
      intro b hb
      exact h1 b (List.mem_cons_of_mem _ hb)

/-- C3 (amended): across any sequence of submitter runs whose run dates
are not earlier than the row's starting from_date and are themselves
non-decreasing, the row's from_date never decreases; a run changes the
row only when its outcome is success — then from_date becomes that run's
today and a database write occurs — while on no-eligible, uncertain and
error outcomes the row is unchanged and no write is performed.  (As
stated over all reachable states the claim is false: the due-today
filter admits sentinel-dated rows, and a success outcome on one sets
from_date from 2030-01-01 back to today — see the counterexample.) -/
theorem C3_from_date_monotone (r : SRow) (runs : List (Outcome × Date))
    (h : List.Pairwise (fun a b : Date => dayNumber a ≤ dayNumber b)
      (r.from_date :: runs.map Prod.snd)) :
    dayNumber r.from_date ≤ dayNumber (runSeq r runs).from_date ∧
    (∀ (x : SRow) (o : Outcome) (d : Date), o ≠ Outcome.success → submitRow x o d = (x, false)) ∧
    (∀ (x : SRow) (d : Date),
        submitRow x Outcome.success d = ({ x with from_date := d }, true)) :=
  ⟨runSeq_from_date_mono r runs h,
   fun x o d ho => submitRow_not_success x o d ho,
   fun _ _ => rfl⟩


/-- C3 witness: the amended monotonicity applied to a concrete activated
row and a single successful later-dated run. -/
theorem C3_from_date_monotone_witness :
    dayNumber activeRowW.from_date ≤
      dayNumber (runSeq activeRowW [(Outcome.success, ⟨2024, 6, 1⟩)]).from_date :=
  (C3_from_date_monotone activeRowW [(Outcome.success, ⟨2024, 6, 1⟩)] (by decide)).1

/-! ### Importer upsert lemmas (C8, C9) -/


theorem sameIdentity_refl (a : SRow) : sameIdentity a a := ⟨rfl, rfl, rfl, rfl, rfl⟩

theorem sameIdentity_trans {a b c : SRow} (h1 : sameIdentity a b) (h2 : sameIdentity b c) :
    sameIdentity a c :=
  ⟨h1.1.trans h2.1, h1.2.1.trans h2.2.1, h1.2.2.1.trans h2.2.2.1,
   h1.2.2.2.1.trans h2.2.2.2.1, h1.2.2.2.2.trans h2.2.2.2.2⟩


theorem reportTargets_congr (rr : ReportRow) {a b : SRow}
    (hm : a.merchant_name = b.merchant_name) (hs : a.store_name = b.store_name) :
    reportTargets rr a ↔ reportTargets rr b := by
  unfold reportTargets sqlKeyMatch
  rw [hm, hs]

theorem upsertReportRow_get (st : UpsertState) (rr : ReportRow) (i : Nat) (r' : SRow)
    (h : st.table[i]? = some r') :
    ∃ r'', (upsertReportRow st rr).table[i]? = some r'' ∧ sameIdentity r'' r' ∧
      (¬ reportTargets rr r' → r'' = r') := by
  unfold upsertReportRow
  by_cases hskip : pyStrip (pyStr rr.merchant) = "" ∨ pyStrip (pyStr rr.store) = ""
  · rw [if_pos hskip]
    exact ⟨r', h, sameIdentity_refl r', fun _ => rfl⟩
  · rw [if_neg hskip]
    by_cases hany :
        (st.table.any (sqlKeyMatch (pyStrip (pyStr rr.merchant)) (pyStrip (pyStr rr.store)))) = true
    · rw [if_pos hany]
      refine ⟨if sqlKeyMatch (pyStrip (pyStr rr.merchant)) (pyStrip (pyStr rr.store)) r' = true
          then { r' with days := fun w => some (parseDays (pyStr rr.withdraw) w) } else r',
        ?_, ?_, ?_⟩
      · show (st.table.map _)[i]? = _
        rw [List.getElem?_map, h]
        rfl
      · by_cases hm :
            sqlKeyMatch (pyStrip (pyStr rr.merchant)) (pyStrip (pyStr rr.store)) r' = true
        · rw [if_pos hm]
          exact ⟨rfl, rfl, rfl, rfl, rfl⟩
        · rw [if_neg hm]
          exact sameIdentity_refl r'
      · intro hnt
        have hm : sqlKeyMatch (pyStrip (pyStr rr.merchant)) (pyStrip (pyStr rr.store)) r' ≠ true := by
          intro hcon
          rcases not_or.mp hskip with ⟨hm1, hm2⟩
          exact hnt ⟨hm1, hm2, hcon⟩
        rw [if_neg hm]
    · rw [if_neg hany]
      have hi : i < st.table.length := by
        rcases List.getElem?_eq_some.mp h with ⟨hlen, _⟩
        exact hlen
      refine ⟨r', ?_, sameIdentity_refl r', fun _ => rfl⟩
      show (st.table ++ _)[i]? = some r'
      rw [List.getElem?_append_left hi]
      exact h

theorem foldl_upsert_get (rest : List ReportRow) (st : UpsertState) (i : Nat) (r' : SRow)
    (h : st.table[i]? = some r') :
    ∃ r'', (rest.foldl upsertReportRow st).table[i]? = some r'' ∧ sameIdentity r'' r' ∧
      ((∀ rr ∈ rest, ¬ reportTargets rr r') → r'' = r') := by
  induction rest generalizing st r' with
  | nil => exact ⟨r', h, sameIdentity_refl r', fun _ => rfl⟩
  | cons rr rest ih =>
    obtain ⟨r₁, h₁, hid₁, hunt₁⟩ := upsertReportRow_get st rr i r' h
    obtain ⟨r₂, h₂, hid₂, hunt₂⟩ := ih (upsertReportRow st rr) r₁ h₁
    refine ⟨r₂, h₂, sameIdentity_trans hid₂ hid₁, ?_⟩
    intro hall
    have hnt : ¬ reportTargets rr r' := hall rr (List.mem_cons_self _ _)
    have e₁ : r₁ = r' := hunt₁ hnt
    have hall' : ∀ rr' ∈ rest, ¬ reportTargets rr' r₁ := by
      intro rr' hmem
      rw [e₁]
      exact hall rr' (List.mem_cons_of_mem _ hmem)
    rw [hunt₂ hall', e₁]

/-- C9: the importer run clears and repopulates: every pre-existing row
survives a run of `update_settlement_csv` at its position with its id,
names, from_date and is_default_date unchanged, and if no report row of
the new run targets it (its merchant/store pair is absent from the new
report), all seven of its day columns end up unset (empty). -/
theorem C9_clear_then_repopulate (t : List SRow) (report : List ReportRow) (n i : Nat) (r : SRow)
    (hi : t[i]? = some r) :
    ∃ r', (updateSettlementCsv t report n)[i]? = some r' ∧
      r'.id = r.id ∧ r'.merchant_name = r.merchant_name ∧ r'.store_name = r.store_name ∧
      r'.from_date = r.from_date ∧ r'.is_default_date = r.is_default_date ∧
      ((∀ rr ∈ report, ¬ reportTargets rr r) → ∀ w, r'.days w = some "") := by
  have hclear : (clearDayColumns t)[i]? = some { r with days := fun _ => some "" } := by
    unfold clearDayColumns
    rw [List.getElem?_map, hi]
    rfl
  obtain ⟨r', h', hid, hunt⟩ :=
    foldl_upsert_get report { table := clearDayColumns t, nextId := n } i _ hclear
  refine ⟨r', h', hid.1, hid.2.1, hid.2.2.1, hid.2.2.2.1, hid.2.2.2.2, ?_⟩
  intro hall w
  have hall' : ∀ rr ∈ report, ¬ reportTargets rr ({ r with days := fun _ => some "" } : SRow) := by
    intro rr hmem
    rw [reportTargets_congr rr (rfl : ({ r with days := fun _ => some "" } : SRow).merchant_name = r.merchant_name) rfl]
    exact hall rr hmem
  rw [hunt hall']


/-- C9 witness: the theorem applied to a one-row table and a report that
does not mention the row's merchant/store pair. -/
theorem C9_clear_then_repopulate_witness :
    ∃ r', (updateSettlementCsv [c9Row] c9Report 7)[0]? = some r' ∧
      r'.id = c9Row.id ∧ r'.merchant_name = c9Row.merchant_name ∧
      r'.store_name = c9Row.store_name ∧ r'.from_date = c9Row.from_date ∧
      r'.is_default_date = c9Row.is_default_date ∧
      ((∀ rr ∈ c9Report, ¬ reportTargets rr c9Row) → ∀ w, r'.days w = some "") :=
  C9_clear_then_repopulate [c9Row] c9Report 7 0 c9Row rfl

theorem updateSettlementCsv_fd (t : List SRow) (report : List ReportRow) (n i : Nat)
    (h : i < t.length) :
    ((updateSettlementCsv t report n)[i]?).map SRow.from_date = (t[i]?).map SRow.from_date := by
  have hi : t[i]? = some t[i] := List.getElem?_eq_getElem h
  have hclear : (clearDayColumns t)[i]? = some { t[i] with days := fun _ => some "" } := by
    unfold clearDayColumns
    rw [List.getElem?_map, hi]
    rfl
  obtain ⟨r', h', hid, _⟩ :=
    foldl_upsert_get report { table := clearDayColumns t, nextId := n } i _ hclear
  unfold updateSettlementCsv
  rw [h', hi]
  rw [Option.map_some', Option.map_some']
  exact congrArg some hid.2.2.2.1

theorem activateStep_fd (trx : List TrxRow) (acc : List SRow) (p : String × String) (i : Nat) :
    ((activateStep trx acc p)[i]?).map SRow.from_date = (acc[i]?).map SRow.from_date ∨
      (acc[i]?).map SRow.from_date = some sentinel := by
  unfold activateStep
  cases hfind : trx.find? (trxMatches p.1 p.2) with
  | none => exact Or.inl rfl
  | some x =>
    rw [List.getElem?_map]
    cases hacc : acc[i]? with
    | none => exact Or.inl rfl
    | some r =>
      simp only [Option.map_some']
      by_cases hc : (sqlKeyMatch p.1 p.2 r && (r.from_date == sentinel)) = true
      · right
        have hfd : r.from_date = sentinel :=
          eq_of_beq ((Bool.and_eq_true _ _).mp hc).2
        rw [hfd]
      · left
        rw [if_neg hc]

theorem activate_fold_fd (trx : List TrxRow) (t : List SRow) :
    ∀ (ds : List (String × String)) (acc : List SRow),
      (∀ (j : Nat), (acc[j]?).map SRow.from_date = (t[j]?).map SRow.from_date ∨
        (t[j]?).map SRow.from_date = some sentinel) →
      ∀ (i : Nat), ((ds.foldl (activateStep trx) acc)[i]?).map SRow.from_date =
            (t[i]?).map SRow.from_date ∨
          (t[i]?).map SRow.from_date = some sentinel := by
  intro ds
  induction ds with
  | nil => intro acc hinv i; exact hinv i
  | cons p rest ih =>
    intro acc hinv i
    rw [List.foldl_cons]
    apply ih
    intro j
    rcases activateStep_fd trx acc p j with hstep | hstep
    · rw [hstep]
      exact hinv j
    · rcases hinv j with hj | hj
      · right
        rw [← hj]
        exact hstep
      · right
        exact hj

theorem activateDefaultStores_fd (t : List SRow) (trx : List TrxRow) (i : Nat) :
    ((activateDefaultStores t trx)[i]?).map SRow.from_date = (t[i]?).map SRow.from_date ∨
      (t[i]?).map SRow.from_date = some sentinel := by
  unfold activateDefaultStores
  exact activate_fold_fd trx t _ t (fun _ => Or.inl rfl) i

/-- C8 (amended): `from_date` is touched in exactly two places — the
submitter's `update_from_date`, run only on a success outcome, and the
importer's `activate_default_stores`, which changes a row's `from_date`
only if that row still held the sentinel; the importer's
`update_settlement_csv` never changes an existing row's `from_date`, and
non-success submitter outcomes write nothing.  (The claim's stronger
"no importer-side operation ever changes an existing row's from_date" is
refuted by the counterexample.) -/
theorem C8_from_date_mutation_sites :
    (∀ (t : List SRow) (report : List ReportRow) (n i : Nat), i < t.length →
        ((updateSettlementCsv t report n)[i]?).map SRow.from_date =
          (t[i]?).map SRow.from_date) ∧
    (∀ (t : List SRow) (trx : List TrxRow) (i : Nat),
        ((activateDefaultStores t trx)[i]?).map SRow.from_date =
            (t[i]?).map SRow.from_date ∨
          (t[i]?).map SRow.from_date = some sentinel) ∧
    (∀ (r : SRow) (o : Outcome) (d : Date), o ≠ Outcome.success → submitRow r o d = (r, false)) :=
  ⟨fun t report n i h => updateSettlementCsv_fd t report n i h,
   fun t trx i => activateDefaultStores_fd t trx i,
   fun r o d ho => submitRow_not_success r o d ho⟩

/-- C8 witness: the amended statement applied to a concrete table,
report, non-sentinel row and non-success outcome. -/
theorem C8_from_date_mutation_sites_witness :
    ((updateSettlementCsv [c9Row] c9Report 7)[0]?).map SRow.from_date =
        ([c9Row][0]?).map SRow.from_date ∧
      submitRow c9Row Outcome.noEligible ⟨2024, 6, 1⟩ = (c9Row, false) :=
  ⟨C8_from_date_mutation_sites.1 [c9Row] c9Report 7 0 (by decide),
   C8_from_date_mutation_sites.2.2 c9Row Outcome.noEligible ⟨2024, 6, 1⟩ (by decide)⟩
